import Mathlib

/-!
Shallow embedding of the Revolution Idle Sacrifice Automation core:
the color sampler and matcher (`utils/color_utils.py`) and the
automation engine (`src/automation_engine.py`), together with theorems
settling the behavioural claims about them.

Screen capture, the mouse, and mid-run screen changes are modelled as
oracles supplied to the embedded functions; everything else follows the
Python source line by line.
-/

namespace RevIdle

/-- A screen position `(x, y)`, as in the source's coordinate tuples. -/
abbrev Coord := Int × Int

/-- An RGB triple, as in the source's color tuples. -/
abbrev Color := Int × Int × Int

/-- Channel projection of an RGB triple (index 0 = R, 1 = G, 2 = B). -/
def channel (c : Color) : Fin 3 → Int
  | 0 => c.1
  | 1 => c.2.1
  | 2 => c.2.2

/-- `colors_match` from `utils/color_utils.py` (lines 118-139): `False` when
either argument is `None`, otherwise every RGB component must differ by at
most `tolerance`. -/
def colors_match (color1 color2 : Option Color) (tolerance : Int) : Bool :=
  match color1, color2 with
  | some c1, some c2 =>
      decide (|c1.1 - c2.1| ≤ tolerance) &&
      decide (|c1.2.1 - c2.2.1| ≤ tolerance) &&
      decide (|c1.2.2 - c2.2.2| ≤ tolerance)
  | _, _ => false

/-- Outcome of `screenshot.getpixel` at one position: a pixel tuple with the
given components, or a raised exception (`IndexError`/`ValueError`/...). -/
inductive Pixel where
  | val : List Int → Pixel
  | exn : Pixel
deriving DecidableEq

/-- Oracle for `PIL.ImageGrab`: whether `ImageGrab.grab` itself succeeds, and
what `getpixel` yields at each absolute screen position of the grabbed
region. -/
structure ScreenModel where
  grabOk : Bool
  pixel : Int → Int → Pixel

/-- The bounding box computed by `get_multiple_pixel_colors`
(`utils/color_utils.py` lines 77-85): componentwise min/max over all
coordinates, padded by 5. The `[]` case is never used by the sampler. -/
def batchBbox (coordinates : List Coord) : Int × Int × Int × Int :=
  match coordinates with
  | [] => (0, 0, 0, 0)
  | c0 :: _ =>
    let min_x := coordinates.foldl (fun a c => min a c.1) c0.1
    let max_x := coordinates.foldl (fun a c => max a c.1) c0.1
    let min_y := coordinates.foldl (fun a c => min a c.2) c0.2
    let max_y := coordinates.foldl (fun a c => max a c.2) c0.2
    let padding : Int := 5
    (min_x - padding, min_y - padding, max_x + padding, max_y + padding)

/-- One iteration of the per-coordinate loop in `get_multiple_pixel_colors`
(lines 92-104): `getpixel` at region coordinates `(x - bbox[0], y - bbox[1])`
of the grabbed region (i.e. absolute `(x, y)`); a tuple of length ≥ 3 yields
its first three components, any other format yields `None` for this entry,
and a raised exception is signalled as `none` (aborting the whole loop). -/
def readPixel (screen : ScreenModel) (bbox : Int × Int × Int × Int) (x y : Int) :
    Option (Option Color) :=
  let region_x := x - bbox.1
  let region_y := y - bbox.2.1
  match screen.pixel (bbox.1 + region_x) (bbox.2.1 + region_y) with
  | Pixel.exn => none
  | Pixel.val comps =>
    match comps with
    | r :: g :: b :: _ => some (some (r, g, b))
    | _ => some none

/-- The `for x, y in coordinates` loop of `get_multiple_pixel_colors`:
collects entries in order; a raised exception at any coordinate aborts the
loop (result `none`), to be handled by the surrounding `except` clauses. -/
def readPixels (screen : ScreenModel) (bbox : Int × Int × Int × Int) :
    List Coord → Option (List (Option Color))
  | [] => some []
  | (x, y) :: rest =>
    match readPixel screen bbox x y with
    | none => none
    | some entry => (readPixels screen bbox rest).map (fun l => entry :: l)

/-- Result of one call to the batch sampler: the returned list, the number of
underlying `ImageGrab.grab` invocations, and the bounding box passed to the
capture (when one happened). -/
structure BatchResult where
  colors : List (Option Color)
  captures : Nat
  bbox : Option (Int × Int × Int × Int)
deriving DecidableEq

/-- `get_multiple_pixel_colors` from `utils/color_utils.py` (lines 60-115):
empty input returns `[]` without capturing; otherwise one `ImageGrab.grab`
of the padded bounding box, then a per-coordinate `getpixel` loop. A failed
grab, or an exception raised inside the loop, is caught by the
`except (OSError | IndexError | ValueError)` clauses which return
`[None] * len(coordinates)`. -/
def get_multiple_pixel_colors (screen : ScreenModel) (coordinates : List Coord) :
    BatchResult :=
  match coordinates with
  | [] => ⟨[], 0, none⟩
  | _ :: _ =>
    let bbox := batchBbox coordinates
    if screen.grabOk then
      match readPixels screen bbox coordinates with
      | some colors => ⟨colors, 1, some bbox⟩
      | none => ⟨List.replicate coordinates.length none, 1, some bbox⟩
    else
      ⟨List.replicate coordinates.length none, 1, some bbox⟩

/-- The value `get_multiple_pixel_colors` computes for a single coordinate
when no exception is raised: purely a function of that coordinate's own
pixel. -/
def pixelEntry (screen : ScreenModel) (c : Coord) : Option Color :=
  match screen.pixel c.1 c.2 with
  | Pixel.val (r :: g :: b :: _) => some (r, g, b)
  | _ => none

/-- Python exception classes relevant to the engine loop's
`except (OSError, IndexError, ValueError)` clause
(`src/automation_engine.py` line 97): the three caught classes and
everything else. -/
inductive ExcKind where
  | osError
  | indexError
  | valueError
  | other
deriving DecidableEq

/-- Whether an exception is caught by the loop's
`except (OSError, IndexError, ValueError)` clause. -/
def ExcKind.isCaught : ExcKind → Bool
  | .osError => true
  | .indexError => true
  | .valueError => true
  | .other => false

/-- Observable actions of one engine run: the start of a polling cycle, a
completed drag (`_drag_zodiac_to_sacrifice_box`), a completed click
(`_click_sacrifice_button`), and mouse-primitive exceptions raised inside
the drag resp. click sequence. -/
inductive Event where
  | cycle (k : Nat)
  | drag (fromC toC : Coord)
  | dragError (e : ExcKind)
  | click (c : Coord)
  | clickError (e : ExcKind)
deriving DecidableEq

/-- Whether an event is a completed click. -/
def isClickEvent : Event → Bool
  | .cycle _ => false
  | .drag _ _ => false
  | .dragError _ => false
  | .click _ => true
  | .clickError _ => false

/-- Whether an event is a completed drag. -/
def isDragEvent : Event → Bool
  | .cycle _ => false
  | .drag _ _ => true
  | .dragError _ => false
  | .click _ => false
  | .clickError _ => false

/-- The external world as one polling cycle sees it: the screen for the
batched read, and — indexed by how many `_perform_sacrifice_action` calls
have already happened this cycle — the fresh `get_pixel_color` confirm
sample after each drag (`none` models its internally-caught failures) and
whether the mouse primitives of that drag resp. click raise. -/
structure World where
  batchScreen : ScreenModel
  confirmColor : Nat → Option Color
  dragExc : Nat → Option ExcKind
  clickExc : Nat → Option ExcKind

/-- Outcome of `_check_zodiac_slots`: an action was performed (`True` in the
source), no slot led to a completed sacrifice (`False`), or an exception
propagated out of the call. -/
inductive CheckResult where
  | acted
  | noMatch
  | exc (e : ExcKind)
deriving DecidableEq

/-- Return value of the embedded `_check_zodiac_slots`: emitted events, the
number of `increment_sacrifice_count` calls, the next per-cycle action
index, and the outcome. -/
structure CheckOut where
  events : List Event
  inc : Nat
  att : Nat
  res : CheckResult
deriving DecidableEq

/-- `_check_zodiac_slots` together with the inlined
`_perform_sacrifice_action` (`src/automation_engine.py` lines 140-233):
walk `zip(zodiac_colors, target_colors)` in order with `slot_index`; on a
slot match perform the drag, wait, take a fresh confirm sample, and either
click-and-increment (returning `True`, i.e. `.acted`) or fall through to the
next slot. `att` counts action attempts within the cycle and indexes the
world's oracles; a mouse exception propagates immediately. -/
def check_zodiac_slots (w : World) (slots : List Coord) (box button : Coord)
    (buttonTarget : Color) (tol : Int) :
    List (Option Color × Color) → Nat → Nat → CheckOut
  | [], _, att => ⟨[], 0, att, .noMatch⟩
  | (current_color, target_color) :: rest, slot_index, att =>
    if colors_match current_color (some target_color) tol then
      match w.dragExc att with
      | some e => ⟨[Event.dragError e], 0, att, .exc e⟩
      | none =>
        let dragEv := Event.drag (slots.getD slot_index (0, 0)) box
        if colors_match (w.confirmColor att) (some buttonTarget) tol then
          match w.clickExc att with
          | some e => ⟨[dragEv, Event.clickError e], 0, att, .exc e⟩
          | none => ⟨[dragEv, Event.click button], 1, att + 1, .acted⟩
        else
          let r := check_zodiac_slots w slots box button buttonTarget tol rest
            (slot_index + 1) (att + 1)
          ⟨dragEv :: r.events, r.inc, r.att, r.res⟩
    else
      check_zodiac_slots w slots box button buttonTarget tol rest (slot_index + 1) att

/-- The `click_coords` dictionary as `run_automation` receives it; `none`
models an absent key. -/
structure ClickCoords where
  zodiac_slots : Option (List Coord)
  sacrifice_box : Option Coord
  sacrifice_button : Option Coord

/-- The `target_rgbs` dictionary as `run_automation` receives it; `none`
models an absent key. -/
structure TargetRgbs where
  zodiac_slots : Option (List Color)
  sacrifice_button : Option Color

/-- `_validate_config` (`src/automation_engine.py` lines 116-138): all
required keys present, and the zodiac-slot lists non-empty. -/
def validate_config (cc : ClickCoords) (tr : TargetRgbs) : Bool :=
  if !(cc.zodiac_slots.isSome && cc.sacrifice_box.isSome && cc.sacrifice_button.isSome
      && tr.zodiac_slots.isSome && tr.sacrifice_button.isSome) then
    false
  else if (cc.zodiac_slots.getD []).isEmpty || (tr.zodiac_slots.getD []).isEmpty then
    false
  else
    true

/-- The validated configuration extracted from the two dictionaries once
`_validate_config` has passed. -/
structure EngineConfig where
  slots : List Coord
  box : Coord
  button : Coord
  slotTargets : List Color
  buttonTarget : Color

/-- Field extraction performed by the body of `run_automation` after
validation (the `getD` defaults are unreachable then). -/
def engine_config (cc : ClickCoords) (tr : TargetRgbs) : EngineConfig :=
  ⟨cc.zodiac_slots.getD [], cc.sacrifice_box.getD (0, 0),
    cc.sacrifice_button.getD (0, 0), tr.zodiac_slots.getD [],
    tr.sacrifice_button.getD (0, 0, 0)⟩

/-- How the `while` loop of `run_automation` ended: the stop condition
observed at the top of an iteration, an uncaught exception, or the model's
fuel ran out (the source loop has no own bound). -/
inductive LoopRes where
  | stopped
  | raised (e : ExcKind)
  | fuelOut
deriving DecidableEq

/-- Return value of the embedded main loop: events in order, final
`sacrifice_count`, and how the loop ended. -/
structure LoopOut where
  events : List Event
  count : Nat
  res : LoopRes
deriving DecidableEq

/-- The `while` loop of `run_automation` (`src/automation_engine.py` lines
67-99). Each iteration `k`: check the combined stop condition
(`is_running and not stop_callback()`, abstracted as `stopSeq k`); sleep;
batch-sample all slots plus the sacrifice button; skip the cycle if any
sample is `None`; otherwise run `_check_zodiac_slots` on
`current_colors[:-1]` zipped with the slot targets. Exceptions of the three
caught classes continue the loop; any other exception propagates out. -/
def run_loop (worlds : Nat → World) (stopSeq : Nat → Bool) (cfg : EngineConfig)
    (tol : Int) : Nat → Nat → Nat → LoopOut
  | 0, _, count => ⟨[], count, .fuelOut⟩
  | fuel + 1, k, count =>
    if stopSeq k then ⟨[], count, .stopped⟩
    else
      let w := worlds k
      let batch := get_multiple_pixel_colors w.batchScreen (cfg.slots ++ [cfg.button])
      if batch.colors.contains none then
        let r := run_loop worlds stopSeq cfg tol fuel (k + 1) count
        ⟨Event.cycle k :: r.events, r.count, r.res⟩
      else
        let zodiac_colors := batch.colors.dropLast
        let c := check_zodiac_slots w cfg.slots cfg.box cfg.button cfg.buttonTarget tol
          (zodiac_colors.zip cfg.slotTargets) 0 0
        match c.res with
        | .exc e =>
          if e.isCaught then
            let r := run_loop worlds stopSeq cfg tol fuel (k + 1) (count + c.inc)
            ⟨Event.cycle k :: (c.events ++ r.events), r.count, r.res⟩
          else
            ⟨Event.cycle k :: c.events, count + c.inc, .raised e⟩
        | _ =>
          let r := run_loop worlds stopSeq cfg tol fuel (k + 1) (count + c.inc)
          ⟨Event.cycle k :: (c.events ++ r.events), r.count, r.res⟩

/-- How a whole `run_automation` call ended. -/
inductive RunStatus where
  | configError
  | stopped
  | raised (e : ExcKind)
  | fuelOut
deriving DecidableEq

/-- Observable result of `run_automation`: events, final `sacrifice_count`,
final `is_running`, and status. -/
structure RunOut where
  events : List Event
  count : Nat
  is_running : Bool
  status : RunStatus
deriving DecidableEq

/-- `run_automation` (`src/automation_engine.py` lines 34-110): validate the
configuration (reporting and returning without any action on failure, the
counter keeping its prior value `c0`); otherwise `start_tracking` resets the
counter to 0 and the main loop runs. On normal loop exit `is_running` is set
to `False`; an uncaught exception leaves it `True`. -/
def run_automation (cc : ClickCoords) (tr : TargetRgbs) (tol : Int)
    (worlds : Nat → World) (stopSeq : Nat → Bool) (fuel : Nat) (c0 : Nat) : RunOut :=
  if validate_config cc tr then
    let r := run_loop worlds stopSeq (engine_config cc tr) tol fuel 0 0
    match r.res with
    | .stopped => ⟨r.events, r.count, false, .stopped⟩
    | .raised e => ⟨r.events, r.count, true, .raised e⟩
    | .fuelOut => ⟨r.events, r.count, true, .fuelOut⟩
  else
    ⟨[], c0, false, .configError⟩

/-! Concrete instances used by witnesses and counterexamples. -/

/-- A screen where the pixel column `x = 0` reads `(10, 20, 30)` and every
other `getpixel` raises. -/
def exampleScreen : ScreenModel where
  grabOk := true
  pixel := fun x _ => if x = 0 then Pixel.val [10, 20, 30] else Pixel.exn

/-- A screen on which every read raises. -/
def blankScreen : ScreenModel where
  grabOk := true
  pixel := fun _ _ => Pixel.exn

/-- A world with no mouse failures whose confirm sample never matches the
spec example's confirm color `(219, 124, 0)`. -/
def confirmFailWorld : World where
  batchScreen := blankScreen
  confirmColor := fun _ => some (0, 0, 0)
  dragExc := fun _ => none
  clickExc := fun _ => none

/-- A world with no mouse failures whose confirm sample always reads the
spec example's confirm color `(219, 124, 0)`. -/
def confirmOkWorld : World where
  batchScreen := blankScreen
  confirmColor := fun _ => some (219, 124, 0)
  dragExc := fun _ => none
  clickExc := fun _ => none

/-- Screen of the C1 scenario's first cycle: the slot pixel column `x = 10`
reads the matching color `(100, 100, 100)`, everything else `(0, 0, 0)`. -/
def c1Screen0 : ScreenModel where
  grabOk := true
  pixel := fun x _ => if x = 10 then Pixel.val [100, 100, 100] else Pixel.val [0, 0, 0]

/-- Screen of the C1 scenario's later cycles: every pixel reads the
non-matching color `(0, 0, 0)`. -/
def c1Screen1 : ScreenModel where
  grabOk := true
  pixel := fun _ _ => Pixel.val [0, 0, 0]

/-- First cycle of the C1 scenario: the slot matches, and the mouse `press`
of the drag raises an `OSError`. -/
def c1World0 : World where
  batchScreen := c1Screen0
  confirmColor := fun _ => some (219, 124, 0)
  dragExc := fun _ => some ExcKind.osError
  clickExc := fun _ => none

/-- Later cycles of the C1 scenario: nothing matches, no mouse failures. -/
def c1World1 : World where
  batchScreen := c1Screen1
  confirmColor := fun _ => none
  dragExc := fun _ => none
  clickExc := fun _ => none

/-- Cycle-indexed worlds of the C1 scenario. -/
def c1Worlds : Nat → World := fun k => if k = 0 then c1World0 else c1World1

/-- Stop signal of the C1 scenario: raised after two cycles. -/
def c1Stop : Nat → Bool := fun k => decide (2 ≤ k)

/-- The spec example's configuration dictionary: one slot at `(10, 10)`,
sacrifice box `(50, 50)`, sacrifice button `(200, 200)`. -/
def exampleCC : ClickCoords := ⟨some [(10, 10)], some (50, 50), some (200, 200)⟩

/-- The spec example's target colors: slot target `(100, 100, 100)`, button
target `(219, 124, 0)`. -/
def exampleTR : TargetRgbs := ⟨some [(100, 100, 100)], some (219, 124, 0)⟩

/-- A configuration dictionary whose `zodiac_slots` entry is the empty
list. -/
def emptySlotsCC : ClickCoords := ⟨some [], some (50, 50), some (200, 200)⟩

/-- A world whose batch screen always fails and with no mouse activity. -/
def trivWorld : World where
  batchScreen := blankScreen
  confirmColor := fun _ => none
  dragExc := fun _ => none
  clickExc := fun _ => none

/-- Constant worlds for runs that never act. -/
def trivWorlds : Nat → World := fun _ => trivWorld

/-! Helper lemmas about the sampler. -/

theorem foldl_min_le_init (f : Coord → Int) (l : List Coord) (a : Int) :
    l.foldl (fun b c => min b (f c)) a ≤ a := by
  induction l generalizing a with
  | nil => exact le_refl a
  | cons c cs ih => exact le_trans (ih (min a (f c))) (min_le_left _ _)

theorem foldl_min_le_mem (f : Coord → Int) (l : List Coord) (a : Int) :
    ∀ p ∈ l, l.foldl (fun b c => min b (f c)) a ≤ f p := by
  induction l generalizing a with
  | nil => intro p hp; cases hp
  | cons c cs ih =>
    intro p hp
    rw [List.mem_cons] at hp
    rcases hp with rfl | hp
    · exact le_trans (foldl_min_le_init f cs (min a (f p))) (min_le_right _ _)
    · exact ih (min a (f c)) p hp

theorem foldl_max_ge_init (f : Coord → Int) (l : List Coord) (a : Int) :
    a ≤ l.foldl (fun b c => max b (f c)) a := by
  induction l generalizing a with
  | nil => exact le_refl a
  | cons c cs ih => exact le_trans (le_max_left _ _) (ih (max a (f c)))

theorem foldl_max_ge_mem (f : Coord → Int) (l : List Coord) (a : Int) :
    ∀ p ∈ l, f p ≤ l.foldl (fun b c => max b (f c)) a := by
  induction l generalizing a with
  | nil => intro p hp; cases hp
  | cons c cs ih =>
    intro p hp
    rw [List.mem_cons] at hp
    rcases hp with rfl | hp
    · exact le_trans (le_max_right _ _) (foldl_max_ge_init f cs (max a (f p)))
    · exact ih (max a (f c)) p hp

theorem readPixel_spec (screen : ScreenModel) (bbox : Int × Int × Int × Int)
    (x y : Int) :
    readPixel screen bbox x y =
      match screen.pixel x y with
      | Pixel.exn => none
      | Pixel.val comps =>
        some (match comps with
          | r :: g :: b :: _ => some (r, g, b)
          | _ => none) := by
  have h1 : bbox.1 + (x - bbox.1) = x := by ring
  have h2 : bbox.2.1 + (y - bbox.2.1) = y := by ring
  simp only [readPixel, h1, h2]
  cases screen.pixel x y with
  | exn => rfl
  | val comps => rcases comps with _ | ⟨r, _ | ⟨g, _ | ⟨b, rest⟩⟩⟩ <;> rfl

theorem readPixels_some (screen : ScreenModel) (bbox : Int × Int × Int × Int)
    (coords : List Coord) (r : List (Option Color))
    (h : readPixels screen bbox coords = some r) :
    r = coords.map (pixelEntry screen) := by
  induction coords generalizing r with
  | nil =>
    simp only [readPixels] at h
    cases h
    rfl
  | cons c cs ih =>
    obtain ⟨x, y⟩ := c
    simp only [readPixels, readPixel_spec] at h
    cases hp : screen.pixel x y with
    | exn => rw [hp] at h; cases h
    | val comps =>
      rcases comps with _ | ⟨a, _ | ⟨b2, _ | ⟨b3, rest⟩⟩⟩ <;>
      · rw [hp] at h
        cases hrec : readPixels screen bbox cs with
        | none => rw [hrec] at h; cases h
        | some l =>
          rw [hrec] at h
          cases h
          simp [List.map_cons, pixelEntry, hp, ih l hrec]

theorem gmp_colors_cases (screen : ScreenModel) (coords : List Coord) :
    (get_multiple_pixel_colors screen coords).colors = coords.map (pixelEntry screen) ∨
    (get_multiple_pixel_colors screen coords).colors =
      List.replicate coords.length none := by
  cases coords with
  | nil => left; rfl
  | cons c cs =>
    simp only [get_multiple_pixel_colors]
    cases hg : screen.grabOk with
    | false => right; simp
    | true =>
      cases hr : readPixels screen (batchBbox (c :: cs)) (c :: cs) with
      | none => right; simp
      | some r => left; simp [readPixels_some _ _ _ _ hr]

theorem gmp_colors_length (screen : ScreenModel) (coords : List Coord) :
    (get_multiple_pixel_colors screen coords).colors.length = coords.length := by
  rcases gmp_colors_cases screen coords with h | h <;> simp [h]

theorem gmp_captures_le_one (screen : ScreenModel) (coords : List Coord) :
    (get_multiple_pixel_colors screen coords).captures ≤ 1 := by
  cases coords with
  | nil => exact Nat.zero_le 1
  | cons c cs =>
    simp only [get_multiple_pixel_colors]
    cases screen.grabOk with
    | false => exact le_refl 1
    | true =>
      cases readPixels screen (batchBbox (c :: cs)) (c :: cs) <;> exact le_refl 1

theorem gmp_bbox_eq (screen : ScreenModel) (c : Coord) (cs : List Coord) :
    (get_multiple_pixel_colors screen (c :: cs)).bbox = some (batchBbox (c :: cs)) := by
  simp only [get_multiple_pixel_colors]
  cases screen.grabOk with
  | false => rfl
  | true => cases readPixels screen (batchBbox (c :: cs)) (c :: cs) <;> rfl

theorem batchBbox_covers (coords : List Coord) (p : Coord) (hp : p ∈ coords) :
    (batchBbox coords).1 + 5 ≤ p.1 ∧ p.1 ≤ (batchBbox coords).2.2.1 - 5 ∧
    (batchBbox coords).2.1 + 5 ≤ p.2 ∧ p.2 ≤ (batchBbox coords).2.2.2 - 5 := by
  cases coords with
  | nil => cases hp
  | cons c cs =>
    have h1 := foldl_min_le_mem Prod.fst (c :: cs) c.1 p hp
    have h2 := foldl_max_ge_mem Prod.fst (c :: cs) c.1 p hp
    have h3 := foldl_min_le_mem Prod.snd (c :: cs) c.2 p hp
    have h4 := foldl_max_ge_mem Prod.snd (c :: cs) c.2 p hp
    simp only [batchBbox]
    refine ⟨by omega, by omega, by omega, by omega⟩

/-! Claim theorems about the color matcher. -/

/-- Claim C5: for every sampled value, target color and tolerance `t ≥ 0`,
`colors_match` returns `false` when the sampled value is `None`, and for a
present sampled color it returns `true` iff every channel differs from the
target by at most `t`. -/
theorem c5_colors_match_spec (sampled : Option Color) (target : Color) (t : Int)
    (_ht : 0 ≤ t) :
    (sampled = none → colors_match sampled (some target) t = false) ∧
    (∀ c, sampled = some c →
      (colors_match sampled (some target) t = true ↔
        ∀ i : Fin 3, |channel c i - channel target i| ≤ t)) := by
  constructor
  · rintro rfl
    rfl
  · rintro c rfl
    simp only [colors_match, Bool.and_eq_true, decide_eq_true_eq]
    constructor
    · rintro ⟨⟨h0, h1⟩, h2⟩ i
      fin_cases i <;> simpa [channel]
    · intro h
      refine ⟨⟨?_, ?_⟩, ?_⟩
      · simpa [channel] using h 0
      · simpa [channel] using h 1
      · simpa [channel] using h 2

/-- Witness for C5 at `sampled = none`, `target = (0, 0, 0)`, `t = 0`. -/
theorem c5_colors_match_spec_witness :
    colors_match none (some ((0 : Int), (0 : Int), (0 : Int))) 0 = false :=
  (c5_colors_match_spec none (0, 0, 0) 0 (by decide)).1 rfl

/-- Claim C10: `colors_match` also returns `false` when the target color is
`None`, whatever the sampled value and tolerance are. -/
theorem c10_none_target_never_matches (sampled : Option Color) (t : Int) :
    colors_match sampled none t = false := by
  cases sampled <;> rfl

/-! Claim theorems about the batch sampler. -/

/-- Counterexample to claim C2 as stated: sampling coordinate `(0, 0)` on
`exampleScreen` succeeds on its own, but batching it with `(100, 0)` — whose
`getpixel` raises — makes the `(0, 0)` entry fail too, because the
`except` clauses of `get_multiple_pixel_colors` replace the whole batch by
`[None] * len(coordinates)`. Entries therefore do not fail independently. -/
theorem c2_counterexample :
    (get_multiple_pixel_colors exampleScreen [((0 : Int), (0 : Int))]).colors =
      [some (10, 20, 30)] ∧
    (get_multiple_pixel_colors exampleScreen
        [((0 : Int), (0 : Int)), ((100 : Int), (0 : Int))]).colors = [none, none] := by
  constructor <;> rfl

/-- Claim C2 (amended): entries of a batch are computed independently — each
from its own coordinate's pixel — as long as no coordinate's `getpixel`
raises an exception (in particular an unsupported pixel format yields `None`
for that entry only); but when the grab fails or any coordinate's `getpixel`
raises, the whole batch fails and every entry is `None`. -/
theorem c2_batch_failure_policy (screen : ScreenModel) (coords : List Coord)
    (hne : coords ≠ []) :
    (∀ r, screen.grabOk = true →
      readPixels screen (batchBbox coords) coords = some r →
      (get_multiple_pixel_colors screen coords).colors =
        coords.map (pixelEntry screen)) ∧
    ((screen.grabOk = false ∨ readPixels screen (batchBbox coords) coords = none) →
      (get_multiple_pixel_colors screen coords).colors =
        List.replicate coords.length none) := by
  cases coords with
  | nil => exact absurd rfl hne
  | cons c cs =>
    constructor
    · intro r hg hr
      simp only [get_multiple_pixel_colors, hg, if_true, hr]
      exact readPixels_some _ _ _ _ hr
    · intro hfail
      rcases hfail with hg | hr
      · simp [get_multiple_pixel_colors, hg]
      · simp only [get_multiple_pixel_colors, hr]
        cases screen.grabOk <;> simp

/-- Witness for C2's amended theorem: on `exampleScreen`, batching the good
coordinate `(0, 0)` with the raising coordinate `(100, 0)` yields `None` for
both entries. -/
theorem c2_batch_failure_policy_witness :
    (get_multiple_pixel_colors exampleScreen
        [((0 : Int), (0 : Int)), ((100 : Int), (0 : Int))]).colors =
      List.replicate 2 none :=
  (c2_batch_failure_policy exampleScreen [(0, 0), (100, 0)] (by decide)).2
    (Or.inr (by decide))

/-- Claim C7: the batch sampler returns a list of the same length and order
as its input (each entry computed from its own coordinate, or the whole
batch replaced by `None`s on failure), performs at most one underlying
capture, captures exactly the bounding rectangle of the coordinates padded
by 5 pixels on each side, and for empty input returns `[]` with zero
captures. -/
theorem c7_sample_batch_contract (screen : ScreenModel) (coords : List Coord) :
    ((get_multiple_pixel_colors screen coords).colors.length = coords.length) ∧
    ((get_multiple_pixel_colors screen coords).colors =
        coords.map (pixelEntry screen) ∨
      (get_multiple_pixel_colors screen coords).colors =
        List.replicate coords.length none) ∧
    ((get_multiple_pixel_colors screen coords).captures ≤ 1) ∧
    (coords = [] → get_multiple_pixel_colors screen coords = ⟨[], 0, none⟩) ∧
    (∀ p ∈ coords, ∀ b, (get_multiple_pixel_colors screen coords).bbox = some b →
      b.1 + 5 ≤ p.1 ∧ p.1 ≤ b.2.2.1 - 5 ∧ b.2.1 + 5 ≤ p.2 ∧ p.2 ≤ b.2.2.2 - 5) := by
  refine ⟨gmp_colors_length screen coords, gmp_colors_cases screen coords,
    gmp_captures_le_one screen coords, ?_, ?_⟩
  · rintro rfl
    rfl
  · intro p hp b hb
    cases coords with
    | nil => cases hp
    | cons c cs =>
      rw [gmp_bbox_eq] at hb
      cases hb
      exact batchBbox_covers (c :: cs) p hp

/-- Witness for C7 at the empty coordinate list. -/
theorem c7_sample_batch_contract_witness :
    get_multiple_pixel_colors exampleScreen [] = ⟨[], 0, none⟩ :=
  (c7_sample_batch_contract exampleScreen []).2.2.2.1 rfl

/-! Helper lemmas about `_check_zodiac_slots` and the main loop. -/

theorem check_inc_le_one (w : World) (slots : List Coord) (box button : Coord)
    (bt : Color) (tol : Int) :
    ∀ (pairs : List (Option Color × Color)) (k a : Nat),
      (check_zodiac_slots w slots box button bt tol pairs k a).inc ≤ 1 := by
  intro pairs
  induction pairs with
  | nil => intro k a; exact Nat.zero_le 1
  | cons p ps ih =>
    intro k a
    obtain ⟨pc, pt⟩ := p
    simp only [check_zodiac_slots]
    split
    · split
      · exact Nat.zero_le 1
      · split
        · split
          · exact Nat.zero_le 1
          · exact le_refl 1
        · exact ih (k + 1) (a + 1)
    · exact ih (k + 1) a

theorem check_inc_eq_clicks (w : World) (slots : List Coord) (box button : Coord)
    (bt : Color) (tol : Int) :
    ∀ (pairs : List (Option Color × Color)) (k a : Nat),
      (check_zodiac_slots w slots box button bt tol pairs k a).inc =
        List.countP isClickEvent
          (check_zodiac_slots w slots box button bt tol pairs k a).events := by
  intro pairs
  induction pairs with
  | nil => intro k a; rfl
  | cons p ps ih =>
    intro k a
    obtain ⟨pc, pt⟩ := p
    simp only [check_zodiac_slots]
    split
    · split
      · rfl
      · split
        · split
          · rfl
          · rfl
        · simpa [List.countP_cons, isClickEvent] using ih (k + 1) (a + 1)
    · exact ih (k + 1) a

theorem check_no_cycle_event (w : World) (slots : List Coord) (box button : Coord)
    (bt : Color) (tol : Int) :
    ∀ (pairs : List (Option Color × Color)) (k a j : Nat),
      Event.cycle j ∉ (check_zodiac_slots w slots box button bt tol pairs k a).events := by
  intro pairs
  induction pairs with
  | nil => intro k a j h; cases h
  | cons p ps ih =>
    intro k a j
    obtain ⟨pc, pt⟩ := p
    simp only [check_zodiac_slots]
    split
    · split
      · simp
      · split
        · split
          · simp
          · simp
        · simpa using ih (k + 1) (a + 1) j
    · exact ih (k + 1) a j

theorem check_drags_le_length (w : World) (slots : List Coord) (box button : Coord)
    (bt : Color) (tol : Int) :
    ∀ (pairs : List (Option Color × Color)) (k a : Nat),
      List.countP isDragEvent
          (check_zodiac_slots w slots box button bt tol pairs k a).events ≤
        pairs.length := by
  intro pairs
  induction pairs with
  | nil => intro k a; exact Nat.zero_le 0
  | cons p ps ih =>
    intro k a
    obtain ⟨pc, pt⟩ := p
    simp only [check_zodiac_slots]
    split
    · split
      · simp [List.countP_cons, isDragEvent]
      · split
        · split
          · simp [List.countP_cons, isDragEvent]
          · simp [List.countP_cons, isDragEvent]
        · have := ih (k + 1) (a + 1)
          simp [List.countP_cons, isDragEvent, List.length_cons]
          omega
    · exact le_trans (ih (k + 1) a) (by simp)

theorem run_loop_count_eq_clicks (worlds : Nat → World) (stopSeq : Nat → Bool)
    (cfg : EngineConfig) (tol : Int) :
    ∀ (fuel k count : Nat),
      (run_loop worlds stopSeq cfg tol fuel k count).count =
        count + List.countP isClickEvent
          (run_loop worlds stopSeq cfg tol fuel k count).events := by
  intro fuel
  induction fuel with
  | zero => intro k count; rfl
  | succ fuel ih =>
    intro k count
    simp only [run_loop]
    split
    · rfl
    · split
      · simp [List.countP_cons, isClickEvent, ih]
        try omega
      · split
        · split
          · simp [List.countP_cons, List.countP_append, isClickEvent, ih,
              ← check_inc_eq_clicks]
            try omega
          · simp [List.countP_cons, isClickEvent, ← check_inc_eq_clicks]
            try omega
        · simp [List.countP_cons, List.countP_append, isClickEvent, ih,
            ← check_inc_eq_clicks]
          try omega

theorem run_loop_cycle_stop (worlds : Nat → World) (stopSeq : Nat → Bool)
    (cfg : EngineConfig) (tol : Int) :
    ∀ (fuel k count j : Nat),
      Event.cycle j ∈ (run_loop worlds stopSeq cfg tol fuel k count).events →
      stopSeq j = false := by
  intro fuel
  induction fuel with
  | zero => intro k count j h; cases h
  | succ fuel ih =>
    intro k count j
    simp only [run_loop]
    split
    · intro h; cases h
    · rename_i hstop
      rw [Bool.not_eq_true] at hstop
      split
      · intro h
        rw [List.mem_cons] at h
        rcases h with h | h
        · cases h; exact hstop
        · exact ih (k + 1) count j h
      · split
        · split
          · intro h
            rw [List.mem_cons, List.mem_append] at h
            rcases h with h | h | h
            · cases h; exact hstop
            · exact absurd h (check_no_cycle_event _ _ _ _ _ _ _ _ _ _)
            · exact ih (k + 1) _ j h
          · intro h
            rw [List.mem_cons] at h
            rcases h with h | h
            · cases h; exact hstop
            · exact absurd h (check_no_cycle_event _ _ _ _ _ _ _ _ _ _)
        · intro h
          rw [List.mem_cons, List.mem_append] at h
          rcases h with h | h | h
          · cases h; exact hstop
          · exact absurd h (check_no_cycle_event _ _ _ _ _ _ _ _ _ _)
          · exact ih (k + 1) _ j h

theorem run_loop_stop_now (worlds : Nat → World) (stopSeq : Nat → Bool)
    (cfg : EngineConfig) (tol : Int) (fuel k count : Nat)
    (h : stopSeq k = true) :
    run_loop worlds stopSeq cfg tol (fuel + 1) k count = ⟨[], count, .stopped⟩ := by
  simp [run_loop, h]

/-! Claim theorems about the engine. -/

/-- Counterexample to claim C3 as stated: on `confirmFailWorld` both
configured slots match in the same cycle; the first drag's confirm check
fails, so the second matching slot is dragged in the same cycle as well —
two slots are acted upon, not only the lowest-index one. -/
theorem c3_counterexample :
    check_zodiac_slots confirmFailWorld [((10 : Int), (10 : Int)), ((20 : Int), (20 : Int))]
        (50, 50) (200, 200) (219, 124, 0) 5
        [(some (100, 100, 100), (100, 100, 100)), (some (30, 30, 30), (30, 30, 30))] 0 0 =
      ⟨[Event.drag (10, 10) (50, 50), Event.drag (20, 20) (50, 50)], 0, 2, .noMatch⟩ := by
  rfl

/-- Claim C3 (amended): slots are evaluated strictly in list order and the
first matching slot is acted upon first; when that slot's post-drag confirm
check succeeds, the engine drags exactly that slot, clicks, increments the
success count by one and returns at once — later slots are not evaluated
that cycle, and the outcome is a deterministic function of the sampled
colors. Only when the confirm check fails (see C4 and the counterexample)
may further matching slots be acted upon in the same cycle. -/
theorem c3_first_match_confirmed (w : World) (slots : List Coord) (box button : Coord)
    (bt : Color) (tol : Int) (pre post : List (Option Color × Color))
    (c : Option Color) (t : Color) (k a : Nat)
    (hpre : ∀ p ∈ pre, colors_match p.1 (some p.2) tol = false)
    (hm : colors_match c (some t) tol = true)
    (hd : w.dragExc a = none)
    (hc : colors_match (w.confirmColor a) (some bt) tol = true)
    (hk : w.clickExc a = none) :
    check_zodiac_slots w slots box button bt tol (pre ++ (c, t) :: post) k a =
      ⟨[Event.drag (slots.getD (k + pre.length) (0, 0)) box, Event.click button],
        1, a + 1, .acted⟩ := by
  induction pre generalizing k with
  | nil =>
    simp only [List.nil_append, check_zodiac_slots, hm, if_true, hd, hc, hk]
    simp
  | cons p ps ih =>
    have hp : colors_match p.1 (some p.2) tol = false := hpre p (by simp)
    obtain ⟨pc, pt⟩ := p
    simp only [List.cons_append, check_zodiac_slots, hp, Bool.false_eq_true, if_false]
    have hrec := ih (k + 1) (fun q hq => hpre q (List.mem_cons_of_mem _ hq))
    simpa [List.append_eq, Nat.add_assoc, Nat.add_comm, Nat.add_left_comm] using hrec

/-- Claim C4: when a matching slot's drag has been performed but the fresh
post-drag confirm sample does not match the confirm target, no click is
performed for that slot, the success count receives no contribution from it,
and evaluation proceeds with the next slot of the same cycle; moreover each
cycle performs at most one drag per evaluated slot. -/
theorem c4_confirm_fail_continue :
    (∀ (w : World) (slots : List Coord) (box button : Coord) (bt : Color) (tol : Int)
        (pre post : List (Option Color × Color)) (c : Option Color) (t : Color) (k a : Nat),
      (∀ p ∈ pre, colors_match p.1 (some p.2) tol = false) →
      colors_match c (some t) tol = true →
      w.dragExc a = none →
      colors_match (w.confirmColor a) (some bt) tol = false →
      check_zodiac_slots w slots box button bt tol (pre ++ (c, t) :: post) k a =
        ⟨Event.drag (slots.getD (k + pre.length) (0, 0)) box ::
            (check_zodiac_slots w slots box button bt tol post
              (k + pre.length + 1) (a + 1)).events,
          (check_zodiac_slots w slots box button bt tol post
            (k + pre.length + 1) (a + 1)).inc,
          (check_zodiac_slots w slots box button bt tol post
            (k + pre.length + 1) (a + 1)).att,
          (check_zodiac_slots w slots box button bt tol post
            (k + pre.length + 1) (a + 1)).res⟩) ∧
    (∀ (w : World) (slots : List Coord) (box button : Coord) (bt : Color) (tol : Int)
        (pairs : List (Option Color × Color)) (k a : Nat),
      List.countP isDragEvent
          (check_zodiac_slots w slots box button bt tol pairs k a).events ≤
        pairs.length) := by
  constructor
  · intro w slots box button bt tol pre post c t k a hpre hm hd hc
    induction pre generalizing k with
    | nil =>
      simp only [List.nil_append, check_zodiac_slots, hm, if_true, hd, hc,
        Bool.false_eq_true, if_false]
      simp
    | cons p ps ih =>
      have hp : colors_match p.1 (some p.2) tol = false := hpre p (by simp)
      obtain ⟨pc, pt⟩ := p
      simp only [List.cons_append, check_zodiac_slots, hp, Bool.false_eq_true, if_false]
      have hrec := ih (k + 1) (fun q hq => hpre q (List.mem_cons_of_mem _ hq))
      simpa [List.append_eq, Nat.add_assoc, Nat.add_comm, Nat.add_left_comm] using hrec
  · exact check_drags_le_length

/-- Witness for C3's amended theorem: with slot 0 not matching and slot 1
matching followed by a successful confirm, exactly slot 1 is dragged and the
button clicked, with one counter increment. -/
theorem c3_first_match_confirmed_witness :
    check_zodiac_slots confirmOkWorld [((10 : Int), (10 : Int)), ((20 : Int), (20 : Int))]
        (50, 50) (200, 200) (219, 124, 0) 5
        [(some ((0 : Int), (0 : Int), (0 : Int)), ((90 : Int), (90 : Int), (90 : Int))),
          (some (100, 100, 100), (100, 100, 100))] 0 0 =
      ⟨[Event.drag (20, 20) (50, 50), Event.click (200, 200)], 1, 1, .acted⟩ := by
  have h := c3_first_match_confirmed confirmOkWorld [(10, 10), (20, 20)] (50, 50) (200, 200)
    (219, 124, 0) 5 [(some (0, 0, 0), (90, 90, 90))] [] (some (100, 100, 100))
    (100, 100, 100) 0 0
    (by intro p hp; rw [List.mem_singleton] at hp; subst hp; decide)
    (by decide) rfl (by decide) rfl
  exact h

/-- Witness for C4: one matching slot whose confirm check fails is dragged
but not clicked, with no counter increment. -/
theorem c4_confirm_fail_continue_witness :
    check_zodiac_slots confirmFailWorld [((10 : Int), (10 : Int))] (50, 50) (200, 200)
        (219, 124, 0) 5
        [(some ((100 : Int), (100 : Int), (100 : Int)),
          ((100 : Int), (100 : Int), (100 : Int)))] 0 0 =
      ⟨[Event.drag (10, 10) (50, 50)], 0, 1, .noMatch⟩ := by
  have h := c4_confirm_fail_continue.1 confirmFailWorld [(10, 10)] (50, 50) (200, 200)
    (219, 124, 0) 5 [] [] (some (100, 100, 100)) (100, 100, 100) 0 0
    (by intro p hp; cases hp) (by decide) rfl (by decide)
  exact h

/-- Claim C6: a `run_automation` call whose configuration has an empty
zodiac-slot list (or any other failed validation) reports a configuration
error and returns immediately: no event — in particular no drag and no
click — is produced, the counter stays 0 and the engine is not running. -/
theorem c6_config_error_fail_fast (cc : ClickCoords) (tr : TargetRgbs) (tol : Int)
    (worlds : Nat → World) (stopSeq : Nat → Bool) (fuel : Nat) :
    (cc.zodiac_slots = some [] → validate_config cc tr = false) ∧
    (validate_config cc tr = false →
      run_automation cc tr tol worlds stopSeq fuel 0 = ⟨[], 0, false, .configError⟩) := by
  constructor
  · intro h
    simp [validate_config, h]
  · intro h
    simp [run_automation, h]

/-- Witness for C6: a concrete run with zero configured slots. -/
theorem c6_config_error_fail_fast_witness :
    run_automation emptySlotsCC exampleTR 5 trivWorlds (fun _ => false) 3 0 =
      ⟨[], 0, false, .configError⟩ :=
  (c6_config_error_fail_fast emptySlotsCC exampleTR 5 trivWorlds (fun _ => false) 3).2
    ((c6_config_error_fail_fast emptySlotsCC exampleTR 5 trivWorlds (fun _ => false) 3).1 rfl)

/-- Claim C9: the success counter is reset to 0 exactly once at run start
(the loop is entered with counter 0 whatever the engine held before), its
value is always its start value plus the number of completed clicks so far
— so it is a non-negative, monotonically non-decreasing integer that only
ever changes by a confirmed click — and each cycle contributes at most one
increment. -/
theorem c9_success_counter (cc : ClickCoords) (tr : TargetRgbs) (tol : Int)
    (worlds : Nat → World) (stopSeq : Nat → Bool) (fuel c0 : Nat) :
    (validate_config cc tr = true →
      (run_automation cc tr tol worlds stopSeq fuel c0).count =
        (run_loop worlds stopSeq (engine_config cc tr) tol fuel 0 0).count) ∧
    (∀ (cfg : EngineConfig) (k c : Nat),
      (run_loop worlds stopSeq cfg tol fuel k c).count =
        c + List.countP isClickEvent (run_loop worlds stopSeq cfg tol fuel k c).events) ∧
    (∀ (w : World) (slots : List Coord) (box button : Coord) (bt : Color)
        (pairs : List (Option Color × Color)) (k a : Nat),
      (check_zodiac_slots w slots box button bt tol pairs k a).inc ≤ 1) := by
  refine ⟨?_, ?_, ?_⟩
  · intro hval
    simp only [run_automation, hval, if_true]
    cases hres : (run_loop worlds stopSeq (engine_config cc tr) tol fuel 0 0).res <;>
      simp [hres]
  · intro cfg k c
    exact run_loop_count_eq_clicks worlds stopSeq cfg tol fuel k c
  · intro w slots box button bt pairs k a
    exact check_inc_le_one w slots box button bt tol pairs k a

/-- Witness for C9 on the spec example configuration, with a stale prior
counter value 7. -/
theorem c9_success_counter_witness :
    (run_automation exampleCC exampleTR 5 trivWorlds c1Stop 1 7).count =
      (run_loop trivWorlds c1Stop (engine_config exampleCC exampleTR) 5 1 0 0).count :=
  (c9_success_counter exampleCC exampleTR 5 trivWorlds c1Stop 1 7).1 (by decide)

/-- Claim C8: the stop signal is checked once per outer-loop iteration, at
the top; if the signal is raised during cycle `k` (it reads true from check
`k + 1` on, and once raised it stays raised), then no cycle with index
greater than `k` ever starts — the in-flight cycle is the only one that
completes after the signal — and the very next check exits the loop at once
with no further event, after which `run_automation` clears `is_running`. -/
theorem c8_stop_within_one_cycle (worlds : Nat → World) (stopSeq : Nat → Bool)
    (cfg : EngineConfig) (tol : Int) (fuel k : Nat)
    (hmono : ∀ j, stopSeq j = true → stopSeq (j + 1) = true)
    (hk : stopSeq (k + 1) = true) :
    (∀ j, Event.cycle j ∈ (run_loop worlds stopSeq cfg tol fuel 0 0).events → j ≤ k) ∧
    (∀ (fuel2 k0 count : Nat), stopSeq k0 = true →
      run_loop worlds stopSeq cfg tol (fuel2 + 1) k0 count = ⟨[], count, .stopped⟩) := by
  constructor
  · intro j hj
    have hfalse := run_loop_cycle_stop worlds stopSeq cfg tol fuel 0 0 j hj
    by_contra hgt
    push_neg at hgt
    have hstep : ∀ d, stopSeq (k + 1 + d) = true := by
      intro d
      induction d with
      | zero => exact hk
      | succ d ihd => exact hmono _ ihd
    have hj2 : j = k + 1 + (j - (k + 1)) := by omega
    rw [hj2, hstep (j - (k + 1))] at hfalse
    cases hfalse
  · intro fuel2 k0 count h
    exact run_loop_stop_now worlds stopSeq cfg tol fuel2 k0 count h

/-- Witness for C8 with the signal already raised at every check. -/
theorem c8_stop_within_one_cycle_witness :
    run_loop trivWorlds (fun _ => true) (engine_config exampleCC exampleTR) 5 1 0 5 =
      ⟨[], 5, .stopped⟩ :=
  (c8_stop_within_one_cycle trivWorlds (fun _ => true) (engine_config exampleCC exampleTR)
    5 0 0 (fun _ h => h) rfl).2 0 0 5 rfl

/-- Claim C1 evaluated at its failing input (the claim is right about the
intended behaviour; the code, which catches `OSError`, `IndexError` and
`ValueError` around the whole cycle body including the mouse actions,
violates it): in cycle 0 the slot matches and the mouse raises an `OSError`
during the drag; the engine swallows it as a per-cycle error and continues —
the trace shows cycle 1 still running after the drag failure, and the run
ends normally via the stop signal instead of propagating the failure. -/
theorem c1_mouse_error_swallowed :
    run_automation exampleCC exampleTR 5 c1Worlds c1Stop 5 0 =
      ⟨[Event.cycle 0, Event.dragError ExcKind.osError, Event.cycle 1], 0, false,
        .stopped⟩ := by
  rfl

end RevIdle
